import Mathlib

/-!
Verification of `example/lambdas/python-processing/process_activity.py`
(the `PythonProcess` activity handler of the `cumulus` repository).

The development shallowly embeds the handler: bytes are `Nat` values,
machine words are `Nat` reduced modulo `2 ^ 32`, the filesystem and the
external fetch capability are explicit parameters (`Env`), and the
handler's side effects (sidecar writes, uploads, file-handle events) are
returned as explicit lists.
-/

/-! ### MD5 (from Python's `hashlib.md5`, as used by `_get_md5_sum`) -/

/-- Truncation to a 32-bit word. -/
def w32 (n : Nat) : Nat := n % 4294967296

/-- 32-bit left rotation (the operand is assumed to be `< 2 ^ 32`). -/
def rotl32 (x s : Nat) : Nat := w32 (x <<< s) ||| (x >>> (32 - s))

/-- The MD5 additive constant table `K`. -/
def md5K : List Nat :=
  [0xd76aa478, 0xe8c7b756, 0x242070db, 0xc1bdceee,
   0xf57c0faf, 0x4787c62a, 0xa8304613, 0xfd469501,
   0x698098d8, 0x8b44f7af, 0xffff5bb1, 0x895cd7be,
   0x6b901122, 0xfd987193, 0xa679438e, 0x49b40821,
   0xf61e2562, 0xc040b340, 0x265e5a51, 0xe9b6c7aa,
   0xd62f105d, 0x02441453, 0xd8a1e681, 0xe7d3fbc8,
   0x21e1cde6, 0xc33707d6, 0xf4d50d87, 0x455a14ed,
   0xa9e3e905, 0xfcefa3f8, 0x676f02d9, 0x8d2a4c8a,
   0xfffa3942, 0x8771f681, 0x6d9d6122, 0xfde5380c,
   0xa4beea44, 0x4bdecfa9, 0xf6bb4b60, 0xbebfbc70,
   0x289b7ec6, 0xeaa127fa, 0xd4ef3085, 0x04881d05,
   0xd9d4d039, 0xe6db99e5, 0x1fa27cf8, 0xc4ac5665,
   0xf4292244, 0x432aff97, 0xab9423a7, 0xfc93a039,
   0x655b59c3, 0x8f0ccc92, 0xffeff47d, 0x85845dd1,
   0x6fa87e4f, 0xfe2ce6e0, 0xa3014314, 0x4e0811a1,
   0xf7537e82, 0xbd3af235, 0x2ad7d2bb, 0xeb86d391]

/-- The MD5 per-round shift amounts. -/
def md5S : List Nat :=
  [7, 12, 17, 22, 7, 12, 17, 22, 7, 12, 17, 22, 7, 12, 17, 22,
   5, 9, 14, 20, 5, 9, 14, 20, 5, 9, 14, 20, 5, 9, 14, 20,
   4, 11, 16, 23, 4, 11, 16, 23, 4, 11, 16, 23, 4, 11, 16, 23,
   6, 10, 15, 21, 6, 10, 15, 21, 6, 10, 15, 21, 6, 10, 15, 21]

/-- The MD5 round mixing function (round selected by the index `i`). -/
def md5F (i b c d : Nat) : Nat :=
  if i < 16 then (b &&& c) ||| ((4294967295 ^^^ b) &&& d)
  else if i < 32 then (d &&& b) ||| ((4294967295 ^^^ d) &&& c)
  else if i < 48 then b ^^^ c ^^^ d
  else c ^^^ (b ||| (4294967295 ^^^ d))

/-- The MD5 message-word schedule. -/
def md5g (i : Nat) : Nat :=
  if i < 16 then i
  else if i < 32 then (5 * i + 1) % 16
  else if i < 48 then (3 * i + 5) % 16
  else (7 * i) % 16

/-- Little-endian 32-bit word number `i` of a 64-byte chunk. -/
def leWord (bs : List Nat) (i : Nat) : Nat :=
  bs.getD (4 * i) 0 + 256 * bs.getD (4 * i + 1) 0 +
    65536 * bs.getD (4 * i + 2) 0 + 16777216 * bs.getD (4 * i + 3) 0

/-- One MD5 round applied to the state `(a, b, c, d)`. -/
def md5step (chunk : List Nat) (st : Nat × Nat × Nat × Nat) (i : Nat) :
    Nat × Nat × Nat × Nat :=
  let f := w32 (md5F i st.2.1 st.2.2.1 st.2.2.2 + st.1 + md5K.getD i 0 +
                leWord chunk (md5g i))
  (st.2.2.2, w32 (st.2.1 + rotl32 f (md5S.getD i 0)), st.2.1, st.2.2.1)

/-- Process one 64-byte chunk, updating the running MD5 state. -/
def md5block (st : Nat × Nat × Nat × Nat) (chunk : List Nat) :
    Nat × Nat × Nat × Nat :=
  let r := (List.range 64).foldl (md5step chunk) st
  (w32 (st.1 + r.1), w32 (st.2.1 + r.2.1), w32 (st.2.2.1 + r.2.2.1),
   w32 (st.2.2.2 + r.2.2.2))

/-- The 8-byte little-endian encoding of a length (in bits). -/
def le64 (n : Nat) : List Nat :=
  [n % 256, n >>> 8 % 256, n >>> 16 % 256, n >>> 24 % 256,
   n >>> 32 % 256, n >>> 40 % 256, n >>> 48 % 256, n >>> 56 % 256]

/-- MD5 padding: append `0x80`, zeros to 56 mod 64, then the bit length. -/
def md5pad (msg : List Nat) : List Nat :=
  msg ++ 128 :: List.replicate ((119 - msg.length % 64) % 64) 0 ++
    le64 (8 * msg.length)

/-- Split a byte list into 64-byte chunks (fuel-driven structural recursion). -/
def chunks64Go : Nat → List Nat → List (List Nat)
  | _, [] => []
  | 0, _ :: _ => []
  | fuel + 1, b :: l => (b :: l).take 64 :: chunks64Go fuel ((b :: l).drop 64)

/-- Split a byte list into 64-byte chunks. -/
def chunks64 (l : List Nat) : List (List Nat) := chunks64Go l.length l

/-- The MD5 digest of a byte list, as four 32-bit words. -/
def md5digest (msg : List Nat) : Nat × Nat × Nat × Nat :=
  (chunks64 (md5pad msg)).foldl md5block
    (0x67452301, 0xefcdab89, 0x98badcfe, 0x10325476)

/-- Lowercase hexadecimal digit for `n < 16`. -/
def hexChar (n : Nat) : Char :=
  if n < 10 then Char.ofNat (48 + n) else Char.ofNat (87 + n)

/-- Two lowercase hex digits of a byte. -/
def byteHex (b : Nat) : String := String.mk [hexChar (b / 16), hexChar (b % 16)]

/-- The little-endian hex rendering of a 32-bit word (8 characters). -/
def word32LEHex (w : Nat) : String :=
  byteHex (w % 256) ++ byteHex (w >>> 8 % 256) ++ byteHex (w >>> 16 % 256) ++
    byteHex (w >>> 24 % 256)

/-- `md5(bytes).hexdigest()`: the lowercase 32-character hex MD5 digest. -/
def md5Hex (msg : List Nat) : String :=
  word32LEHex (md5digest msg).1 ++ word32LEHex (md5digest msg).2.1 ++
    word32LEHex (md5digest msg).2.2.1 ++ word32LEHex (md5digest msg).2.2.2

/-! ### Data model (input and config contracts of the handler) -/

/-- A file entry of a granule: `{'filename': ..., 'type': ...}`. -/
structure GranFile where
  filename : String
  type : String
deriving DecidableEq

/-- A granule: `{'files': [...]}`. -/
structure Granule where
  files : List GranFile
deriving DecidableEq

/-- `config['collection']`: `{'name': ..., 'version': ...}`. -/
structure Collection where
  name : String
  version : String

/-- `config['buckets']['internal']`: `{'name': ...}`. -/
structure BucketRef where
  name : String

/-- `config['buckets']`: `{'internal': {...}}`. -/
structure Buckets where
  internal : BucketRef

/-- The handler config: `collection`, `buckets`, `stack`. -/
structure Config where
  collection : Collection
  buckets : Buckets
  stack : String

/-- The value of `self.input`: either the original job payload
(`{'granules': [...]}`) or, after `process` reassigns it, a flat list of
filenames. -/
inductive PInput where
  | payload (granules : List Granule)
  | filenames (names : List String)
deriving DecidableEq

/-- The mutable attributes of a `PythonProcess` instance. -/
structure ProcState where
  input : PInput
  config : Config

/-- Outcome of opening and reading a local file. -/
inductive FileRes where
  | noFile
  | readFault
  | content (bs : List Nat)
deriving DecidableEq

/-- `true` exactly when the file exists and its bytes are readable. -/
def FileRes.ok : FileRes → Bool
  | .content _ => true
  | _ => false

/-- The external world seen by the handler: `resolve` is the local path the
fetch capability downloads a remote filename to, and `fs` gives the bytes
found at a local path. -/
structure Env where
  resolve : String → String
  fs : String → FileRes

/-- File-handle events emitted by the handler's `with open(...)` blocks. -/
inductive FEvent where
  | openR (p : String)
  | openW (p : String)
  | close (p : String)
deriving DecidableEq

/-- The paths of all files opened (for reading or writing) in a trace. -/
def openedPaths (evs : List FEvent) : List String :=
  evs.filterMap fun e =>
    match e with
    | .openR p => some p
    | .openW p => some p
    | .close _ => none

/-- The paths of all files closed in a trace. -/
def closedPaths (evs : List FEvent) : List String :=
  evs.filterMap fun e =>
    match e with
    | .close p => some p
    | _ => none

/-! ### The handler's operations -/

/-- `_get_md5_sum`: `with open(local_file, 'rb') as file:` then
`md5(file.read()).hexdigest()`.  When the file is missing, `open` itself
raises and no handle exists; when the read faults inside the `with` block,
the handle is still closed. -/
def getMd5Sum (env : Env) (p : String) : Except Unit String × List FEvent :=
  match env.fs p with
  | .noFile => (.error (), [])
  | .readFault => (.error (), [.openR p, .close p])
  | .content bs => (.ok (md5Hex bs), [.openR p, .close p])

/-- `_write_md5sum_file`: `with open(md5_file, 'w') as write_file:` then
`write_file.write(md5_sum)`. -/
def writeMd5SumFile (p : String) : List FEvent := [.openW p, .close p]

/-- `os.path.split(p)[1]`: the part of a path after the last `/`. -/
def basenameChars (cs : List Char) : List Char :=
  cs.foldl (fun acc c => if c = '/' then [] else acc ++ [c]) []

/-- `os.path.split(p)[1]` on strings. -/
def basename (p : String) : String := String.mk (basenameChars p.data)

/-- The remote key built by `add_ancillary_file`:
`s3://{bucket}/staging/{stack}/{collection_string}/{filename}` where
`filename = os.path.split(local_file + '.md5')[1]`. -/
def md5Key (config : Config) (localFile : String) : String :=
  let md5File := localFile ++ ".md5"
  let filename := basename md5File
  let collectionString :=
    config.collection.name ++ "__" ++ config.collection.version
  "s3://" ++ config.buckets.internal.name ++ "/staging/" ++ config.stack ++
    "/" ++ collectionString ++ "/" ++ filename

/-- The digest the handler computes for a readable local file. -/
def digestOf (env : Env) (p : String) : String :=
  match env.fs p with
  | .content bs => md5Hex bs
  | _ => ""

/-- `add_ancillary_file(local_file)`: compute the digest, write the sidecar
`local_file + '.md5'`, upload it to the remote key, return the key.  The
result carries the key together with the sidecar writes, the uploads
(`(local sidecar path, remote key)`), and the file-handle trace; a failed
read propagates as an error. -/
def addAncillaryFile (env : Env) (config : Config) (localFile : String) :
    Except Unit (String × List (String × String) × List (String × String)) ×
      List FEvent :=
  match getMd5Sum env localFile with
  | (.error e, ev) => (.error e, ev)
  | (.ok md5sum, ev) =>
    let md5File := localFile ++ ".md5"
    let key := md5Key config localFile
    (.ok (key, [(md5File, md5sum)], [(md5File, key)]),
     ev ++ writeMd5SumFile md5File)

/-- `list(map(self.add_ancillary_file, local_data_file_list))`, evaluated
left to right; the first failure aborts the whole traversal with no result
list, the file-handle trace of all elements reached is kept. -/
def mapAddAncillary (env : Env) (config : Config) :
    List String →
      Except Unit (List String × List (String × String) ×
        List (String × String)) × List FEvent
  | [] => (.ok ([], [], []), [])
  | l :: ls =>
    match addAncillaryFile env config l with
    | (.error e, ev) => (.error e, ev)
    | (.ok (k, ws, us), ev) =>
      match mapAddAncillary env config ls with
      | (.error e, ev2) => (.error e, ev ++ ev2)
      | (.ok (ks, ws2, us2), ev2) =>
        (.ok (k :: ks, ws ++ ws2, us ++ us2), ev ++ ev2)

/-- The `input_keys` pattern for `hdf`, the regular expression
`^.*\.hdf$`: it accepts exactly the strings ending in `.hdf`. -/
def matchesHdfKey (n : String) : Bool :=
  n.data.reverse.take 4 == ['f', 'd', 'h', '.']

/-- Modelled from the spec: the external `self.fetch('hdf', remote=False)`
capability of the `cumulus_process` library, which is not part of this
repository.  Per the spec it resolves each narrowed input file whose name
matches the `input_keys` pattern for `hdf` to a local filesystem path. -/
def fetchHdf (env : Env) (names : List String) : List String :=
  (names.filter matchesHdfKey).map env.resolve

/-- `copy.deepcopy` of a file record: a fresh record with equal fields. -/
def deepcopyFile (f : GranFile) : GranFile := ⟨f.filename, f.type⟩

/-- `copy.deepcopy` of a granule: a fresh granule with copied files. -/
def deepcopyGranule (g : Granule) : Granule := ⟨g.files.map deepcopyFile⟩

/-- `copy.deepcopy(self.input['granules'])`. -/
def deepcopyGranules (gs : List Granule) : List Granule :=
  gs.map deepcopyGranule

/-- `[file['filename'] for granule in granules for file in granule['files']]`. -/
def originalNames (gs : List Granule) : List String :=
  gs.flatMap fun g => g.files.map GranFile.filename

/-- `[file['filename'] for granule in granules for file in granule['files']
if file['type'] == 'data']`. -/
def dataFilenames (gs : List Granule) : List String :=
  gs.flatMap fun g =>
    (g.files.filter fun f => f.type == "data").map GranFile.filename

/-- Everything observable about one call to `process`: its return value (or
propagated fault), the final `self.input`, the granule structure still owned
by the caller, the sidecar writes, the uploads, and the file-handle trace. -/
structure ProcResult where
  result : Except Unit (List String)
  finalInput : PInput
  callerGranules : List Granule
  writes : List (String × String)
  uploads : List (String × String)
  events : List FEvent

/-- `PythonProcess.process`.  With a payload input it deep-copies the
granules, collects all original filenames, reassigns `self.input` to the
data filenames, fetches the `.hdf` files, maps `add_ancillary_file` over
the local files, calls the external `clean_output`, and returns the keys
followed by the original filenames.  With a non-payload input,
`self.input['granules']` raises before anything else happens. -/
def process (env : Env) (st : ProcState) : ProcResult :=
  match st.input with
  | .filenames ns => ⟨.error (), .filenames ns, [], [], [], []⟩
  | .payload gs0 =>
    let granules := deepcopyGranules gs0
    let originalFileNames := originalNames granules
    let dataNames := dataFilenames granules
    let localDataFileList := fetchHdf env dataNames
    match mapAddAncillary env st.config localDataFileList with
    | (.error _, ev) => ⟨.error (), .filenames dataNames, gs0, [], [], ev⟩
    | (.ok (keys, ws, us), ev) =>
      ⟨.ok (keys ++ originalFileNames), .filenames dataNames, gs0, ws, us, ev⟩

/-! ### Concrete witness data (matches the worked example of the spec) -/

/-- Witness config: collection `MOD09`/`006`, bucket `mybucket`, stack `dev`. -/
def wConfig : Config := ⟨⟨"MOD09", "006"⟩, ⟨⟨"mybucket"⟩⟩, "dev"⟩

/-- Witness environment: `modis.hdf` downloads to `/tmp/modis.hdf`, whose
bytes are `b"test"`. -/
def wEnv : Env :=
  ⟨fun n => "/tmp/" ++ n,
   fun p =>
     if p = "/tmp/modis.hdf" then .content [116, 101, 115, 116] else .noFile⟩

/-- Witness payload: one granule with a data file and a metadata file. -/
def wGranules : List Granule :=
  [⟨[⟨"modis.hdf", "data"⟩, ⟨"modis.met", "metadata"⟩]⟩]

/-- Witness handler state. -/
def wState : ProcState := ⟨.payload wGranules, wConfig⟩

/-- Witness environment in which every local file is missing. -/
def wEnvBad : Env := ⟨fun n => "/tmp/" ++ n, fun _ => .noFile⟩

/-! ### Helper lemmas -/

theorem strLength_append (a b : String) :
    (a ++ b).length = a.length + b.length := by
  show (a ++ b).data.length = a.data.length + b.data.length
  rw [String.data_append, List.length_append]

theorem byteHex_length (b : Nat) : (byteHex b).length = 2 := rfl

theorem word32LEHex_length (w : Nat) : (word32LEHex w).length = 8 := by
  unfold word32LEHex
  rw [strLength_append, strLength_append, strLength_append,
    byteHex_length, byteHex_length, byteHex_length, byteHex_length]

theorem md5Hex_length (msg : List Nat) : (md5Hex msg).length = 32 := by
  unfold md5Hex
  rw [strLength_append, strLength_append, strLength_append,
    word32LEHex_length, word32LEHex_length, word32LEHex_length,
    word32LEHex_length]

set_option maxRecDepth 100000 in
theorem md5Hex_test :
    md5Hex [116, 101, 115, 116] = "098f6bcd4621d373cade4e832627b4f6" := by
  decide

theorem basenameChars_append_noSlash (cs ds : List Char)
    (h : ∀ c ∈ ds, c ≠ '/') :
    basenameChars (cs ++ ds) = basenameChars cs ++ ds := by
  unfold basenameChars
  rw [List.foldl_append]
  generalize List.foldl _ [] cs = acc
  induction ds generalizing acc with
  | nil => simp
  | cons d ds ih =>
    simp only [List.foldl_cons]
    rw [if_neg (h d (by simp))]
    rw [ih (fun c hc => h c (by simp [hc])) (acc ++ [d])]
    simp

theorem basename_append_md5 (l : String) :
    basename (l ++ ".md5") = basename l ++ ".md5" := by
  apply String.ext
  show basenameChars (l ++ ".md5").data =
    (String.mk (basenameChars l.data) ++ ".md5").data
  rw [String.data_append, String.data_append]
  exact basenameChars_append_noSlash l.data ".md5".data (by decide)

theorem deepcopyGranules_eq (gs : List Granule) : deepcopyGranules gs = gs := by
  unfold deepcopyGranules deepcopyGranule deepcopyFile
  simp

theorem mapAddAncillary_all_ok (env : Env) (config : Config)
    (ls : List String) (h : ∀ l ∈ ls, (env.fs l).ok = true) :
    mapAddAncillary env config ls =
      (.ok (ls.map (md5Key config),
            ls.map fun l => (l ++ ".md5", digestOf env l),
            ls.map fun l => (l ++ ".md5", md5Key config l),),
       ls.flatMap fun l =>
         [.openR l, .close l, .openW (l ++ ".md5"), .close (l ++ ".md5")]) := by
  induction ls with
  | nil => rfl
  | cons l ls ih =>
    have hl := h l (by simp)
    obtain ⟨bs, hbs⟩ : ∃ bs, env.fs l = .content bs := by
      cases hfs : env.fs l with
      | noFile => rw [hfs] at hl; simp [FileRes.ok] at hl
      | readFault => rw [hfs] at hl; simp [FileRes.ok] at hl
      | content bs => exact ⟨bs, rfl⟩
    rw [show mapAddAncillary env config (l :: ls) =
      (match addAncillaryFile env config l with
       | (.error e, ev) => (.error e, ev)
       | (.ok (k, ws, us), ev) =>
         match mapAddAncillary env config ls with
         | (.error e, ev2) => (.error e, ev ++ ev2)
         | (.ok (ks, ws2, us2), ev2) =>
           (.ok (k :: ks, ws ++ ws2, us ++ us2), ev ++ ev2)) from rfl]
    rw [ih fun x hx => h x (by simp [hx])]
    simp [addAncillaryFile, getMd5Sum, hbs, digestOf, writeMd5SumFile]

theorem mapAddAncillary_err (env : Env) (config : Config) (ls : List String)
    (h : ∃ l ∈ ls, (env.fs l).ok = false) :
    (mapAddAncillary env config ls).1 = .error () := by
  induction ls with
  | nil => simp at h
  | cons l ls ih =>
    rw [show mapAddAncillary env config (l :: ls) =
      (match addAncillaryFile env config l with
       | (.error e, ev) => (.error e, ev)
       | (.ok (k, ws, us), ev) =>
         match mapAddAncillary env config ls with
         | (.error e, ev2) => (.error e, ev ++ ev2)
         | (.ok (ks, ws2, us2), ev2) =>
           (.ok (k :: ks, ws ++ ws2, us ++ us2), ev ++ ev2)) from rfl]
    cases hfs : env.fs l with
    | noFile => simp [addAncillaryFile, getMd5Sum, hfs]
    | readFault => simp [addAncillaryFile, getMd5Sum, hfs]
    | content bs =>
      have htail : ∃ x ∈ ls, (env.fs x).ok = false := by
        rcases h with ⟨x, hx, hxf⟩
        rcases List.mem_cons.mp hx with hx1 | hx2
        · rw [hx1, hfs] at hxf; simp [FileRes.ok] at hxf
        · exact ⟨x, hx2, hxf⟩
      have := ih htail
      rcases hrec : mapAddAncillary env config ls with ⟨r, ev2⟩
      rw [hrec] at this
      simp only at this
      cases r with
      | error e => simp [addAncillaryFile, getMd5Sum, hfs, hrec]
      | ok v => simp at this

theorem mapAddAncillary_balanced (env : Env) (config : Config)
    (ls : List String) :
    openedPaths (mapAddAncillary env config ls).2 =
      closedPaths (mapAddAncillary env config ls).2 := by
  induction ls with
  | nil => rfl
  | cons l ls ih =>
    rw [show mapAddAncillary env config (l :: ls) =
      (match addAncillaryFile env config l with
       | (.error e, ev) => (.error e, ev)
       | (.ok (k, ws, us), ev) =>
         match mapAddAncillary env config ls with
         | (.error e, ev2) => (.error e, ev ++ ev2)
         | (.ok (ks, ws2, us2), ev2) =>
           (.ok (k :: ks, ws ++ ws2, us ++ us2), ev ++ ev2)) from rfl]
    rcases hrec : mapAddAncillary env config ls with ⟨r, ev2⟩
    rw [hrec] at ih
    cases hfs : env.fs l with
    | noFile => simp [addAncillaryFile, getMd5Sum, hfs, openedPaths, closedPaths]
    | readFault =>
      simp [addAncillaryFile, getMd5Sum, hfs, openedPaths, closedPaths]
    | content bs =>
      cases r with
      | error e =>
        simp [addAncillaryFile, getMd5Sum, hfs, writeMd5SumFile, hrec,
          openedPaths, closedPaths] at ih ⊢
        exact ih
      | ok v =>
        simp [addAncillaryFile, getMd5Sum, hfs, writeMd5SumFile, hrec,
          openedPaths, closedPaths] at ih ⊢
        exact ih

theorem process_ok (env : Env) (st : ProcState) (gs : List Granule)
    (h1 : st.input = .payload gs)
    (h2 : ∀ l ∈ fetchHdf env (dataFilenames gs), (env.fs l).ok = true) :
    process env st =
      ⟨.ok ((fetchHdf env (dataFilenames gs)).map (md5Key st.config) ++
          originalNames gs),
        .filenames (dataFilenames gs), gs,
        (fetchHdf env (dataFilenames gs)).map fun l =>
          (l ++ ".md5", digestOf env l),
        (fetchHdf env (dataFilenames gs)).map fun l =>
          (l ++ ".md5", md5Key st.config l),
        (fetchHdf env (dataFilenames gs)).flatMap fun l =>
          [.openR l, .close l, .openW (l ++ ".md5"), .close (l ++ ".md5")]⟩ := by
  rcases st with ⟨inp, cfg⟩
  simp only at h1
  subst h1
  simp only [process, deepcopyGranules_eq]
  rw [mapAddAncillary_all_ok env cfg _ h2]

theorem process_state_effects (env : Env) (st : ProcState)
    (gs : List Granule) (h : st.input = .payload gs) :
    (process env st).callerGranules = gs ∧
      (process env st).finalInput = .filenames (dataFilenames gs) := by
  rcases st with ⟨inp, cfg⟩
  simp only at h
  subst h
  simp only [process, deepcopyGranules_eq]
  rcases hrec : mapAddAncillary env cfg (fetchHdf env (dataFilenames gs))
    with ⟨r, ev⟩
  cases r with
  | error e => simp
  | ok v => rcases v with ⟨ks, ws, us⟩; simp

/-! ### Claims -/

/-- Claim C1: for every job input, the list returned by `process` is the
concatenation of all generated sidecar remote keys (one per fetched local
data file, in fetch-result order) followed by the filenames of every file
in every granule, order-preserved per granule/file iteration order. -/
theorem claim_C1_output_concat (env : Env) (st : ProcState)
    (gs : List Granule) (h1 : st.input = .payload gs)
    (h2 : ∀ l ∈ fetchHdf env (dataFilenames gs), (env.fs l).ok = true) :
    (process env st).result =
      .ok ((fetchHdf env (dataFilenames gs)).map (md5Key st.config) ++
        originalNames gs) := by
  rw [process_ok env st gs h1 h2]

theorem claim_C1_witness :
    (process wEnv wState).result =
      .ok ((fetchHdf wEnv (dataFilenames wGranules)).map (md5Key wState.config)
        ++ originalNames wGranules) :=
  claim_C1_output_concat wEnv wState wGranules rfl (by decide)

/-- Claim C2: for every file of type `"data"` whose resolved local path is
readable, exactly one sidecar key appears in the output of `process`
(positionally, one key per fetched local file), and the digest written for
it equals the deterministic content hash of that file's bytes at the time
of reading. -/
theorem claim_C2_one_sidecar_per_data_file (env : Env) (st : ProcState)
    (gs : List Granule) (h1 : st.input = .payload gs)
    (h2 : ∀ l ∈ fetchHdf env (dataFilenames gs), (env.fs l).ok = true)
    (i : Nat) (hi : i < (fetchHdf env (dataFilenames gs)).length)
    (bs : List Nat)
    (hbs : env.fs ((fetchHdf env (dataFilenames gs)).getD i "") =
      .content bs) :
    (process env st).writes.length =
      (fetchHdf env (dataFilenames gs)).length ∧
    (process env st).writes.getD i ("", "") =
      ((fetchHdf env (dataFilenames gs)).getD i "" ++ ".md5", md5Hex bs) ∧
    (process env st).result =
      .ok ((fetchHdf env (dataFilenames gs)).map (md5Key st.config) ++
        originalNames gs) := by
  rw [process_ok env st gs h1 h2]
  refine ⟨by simp, ?_, rfl⟩
  rw [List.getD_eq_getElem _ _ (by simpa using hi), List.getElem_map]
  rw [List.getD_eq_getElem _ _ hi] at hbs ⊢
  simp [digestOf, hbs]

theorem claim_C2_witness :
    (process wEnv wState).writes.length =
      (fetchHdf wEnv (dataFilenames wGranules)).length ∧
    (process wEnv wState).writes.getD 0 ("", "") =
      ((fetchHdf wEnv (dataFilenames wGranules)).getD 0 "" ++ ".md5",
        md5Hex [116, 101, 115, 116]) ∧
    (process wEnv wState).result =
      .ok ((fetchHdf wEnv (dataFilenames wGranules)).map (md5Key wState.config)
        ++ originalNames wGranules) :=
  claim_C2_one_sidecar_per_data_file wEnv wState wGranules rfl (by decide) 0
    (by decide) [116, 101, 115, 116] (by decide)

/-- Claim C3: remote key construction is a pure function of the bucket, the
stack, the collection name, the collection version and the local filename:
`add_ancillary_file` always builds the key
`s3://{bucket}/staging/{stack}/{name}__{version}/{local filename}.md5`,
where the local filename is the part of the local path after the last
separator. -/
theorem claim_C3_remote_key_format (config : Config) (localFile : String) :
    md5Key config localFile =
      "s3://" ++ config.buckets.internal.name ++ "/staging/" ++ config.stack
        ++ "/" ++ (config.collection.name ++ "__" ++ config.collection.version)
        ++ "/" ++ basename localFile ++ ".md5" := by
  simp only [md5Key]
  rw [basename_append_md5]
  apply String.ext
  simp [String.data_append, List.append_assoc]

/-- Claim C4: the sidecar written for a readable local file `l` is the
single write of the file `l ++ ".md5"`, whose content is exactly the
32-character hex digest of `l`'s bytes; in particular the digest of the
bytes `b"test"` is `098f6bcd4621d373cade4e832627b4f6`. -/
theorem claim_C4_sidecar_content (env : Env) (config : Config) (l : String)
    (bs : List Nat) (h : env.fs l = .content bs) :
    (addAncillaryFile env config l).1 =
      .ok (md5Key config l, [(l ++ ".md5", md5Hex bs)],
        [(l ++ ".md5", md5Key config l)]) ∧
    (md5Hex bs).length = 32 ∧
    md5Hex [116, 101, 115, 116] = "098f6bcd4621d373cade4e832627b4f6" := by
  refine ⟨?_, md5Hex_length bs, md5Hex_test⟩
  simp [addAncillaryFile, getMd5Sum, h]

set_option maxRecDepth 100000 in
theorem claim_C4_witness :
    (addAncillaryFile wEnv wConfig "/tmp/modis.hdf").1 =
      .ok (md5Key wConfig "/tmp/modis.hdf",
        [("/tmp/modis.hdf" ++ ".md5", md5Hex [116, 101, 115, 116])],
        [("/tmp/modis.hdf" ++ ".md5", md5Key wConfig "/tmp/modis.hdf")]) ∧
    (md5Hex [116, 101, 115, 116]).length = 32 ∧
    md5Hex [116, 101, 115, 116] = "098f6bcd4621d373cade4e832627b4f6" :=
  claim_C4_sidecar_content wEnv wConfig "/tmp/modis.hdf" [116, 101, 115, 116]
    (by decide)

/-- Claim C5: files whose type is not `"data"` never contribute a sidecar
key (every name in the narrowed working input comes from a file of type
`"data"`), but their filenames still appear in the final output list. -/
theorem claim_C5_nondata_files (env : Env) (st : ProcState)
    (gs : List Granule) (g : Granule) (f : GranFile)
    (h1 : st.input = .payload gs)
    (h2 : ∀ l ∈ fetchHdf env (dataFilenames gs), (env.fs l).ok = true)
    (hg : g ∈ gs) (hf : f ∈ g.files) (ht : f.type ≠ "data") :
    (∃ out, (process env st).result = .ok out ∧ f.filename ∈ out) ∧
    ∀ n ∈ dataFilenames gs, ∃ g2 ∈ gs, ∃ f2 ∈ g2.files,
      f2.type = "data" ∧ f2.filename = n := by
  constructor
  · refine ⟨_, by rw [process_ok env st gs h1 h2], ?_⟩
    apply List.mem_append_right
    simp only [originalNames, List.mem_flatMap]
    exact ⟨g, hg, List.mem_map_of_mem GranFile.filename hf⟩
  · intro n hn
    simp only [dataFilenames, List.mem_flatMap, List.mem_map,
      List.mem_filter] at hn
    rcases hn with ⟨g2, hg2, f2, ⟨hf2, hty⟩, hname⟩
    exact ⟨g2, hg2, f2, hf2, by simpa using hty, hname⟩

theorem claim_C5_witness :
    (∃ out, (process wEnv wState).result = .ok out ∧
      GranFile.filename ⟨"modis.met", "metadata"⟩ ∈ out) ∧
    ∀ n ∈ dataFilenames wGranules, ∃ g2 ∈ wGranules, ∃ f2 ∈ g2.files,
      f2.type = "data" ∧ f2.filename = n :=
  claim_C5_nondata_files wEnv wState wGranules
    ⟨[⟨"modis.hdf", "data"⟩, ⟨"modis.met", "metadata"⟩]⟩
    ⟨"modis.met", "metadata"⟩ rfl (by decide) (by decide) (by decide)
    (by decide)

/-- Claim C6: hashing the same byte content twice yields the same hex
digest string; the digest computation is a deterministic function of the
bytes. -/
theorem claim_C6_digest_deterministic (b1 b2 : List Nat) (h : b1 = b2) :
    md5Hex b1 = md5Hex b2 := by rw [h]

theorem claim_C6_witness :
    md5Hex [116, 101, 115, 116] = md5Hex [116, 101, 115, 116] :=
  claim_C6_digest_deterministic [116, 101, 115, 116] [116, 101, 115, 116] rfl

/-- Claim C7: `process` does not mutate the caller-owned input: the granule
list the caller supplied is unchanged by the call, and the working copy
`copy.deepcopy` builds for `process` is a fresh structure whose value
equals the original. -/
theorem claim_C7_caller_input_unchanged (env : Env) (st : ProcState)
    (gs : List Granule) (h : st.input = .payload gs) :
    (process env st).callerGranules = gs ∧ deepcopyGranules gs = gs :=
  ⟨(process_state_effects env st gs h).1, deepcopyGranules_eq gs⟩

theorem claim_C7_witness :
    (process wEnv wState).callerGranules = wGranules ∧
      deepcopyGranules wGranules = wGranules :=
  claim_C7_caller_input_unchanged wEnv wState wGranules rfl

/-- Claim C8: a failure reading any fetched local file propagates out of
`process` uncaught: the call produces no result list at all, so a single
file failure aborts the whole batch. -/
theorem claim_C8_failure_aborts_batch (env : Env) (st : ProcState)
    (gs : List Granule) (h1 : st.input = .payload gs)
    (h2 : ∃ l ∈ fetchHdf env (dataFilenames gs), (env.fs l).ok = false) :
    (process env st).result = .error () := by
  rcases st with ⟨inp, cfg⟩
  simp only at h1
  subst h1
  simp only [process, deepcopyGranules_eq]
  have herr := mapAddAncillary_err env cfg _ h2
  rcases hrec : mapAddAncillary env cfg (fetchHdf env (dataFilenames gs))
    with ⟨r, ev⟩
  rw [hrec] at herr
  simp only at herr
  subst herr
  rfl

theorem claim_C8_witness : (process wEnvBad wState).result = .error () :=
  claim_C8_failure_aborts_batch wEnvBad wState wGranules rfl (by decide)

/-- Claim C9: every local file opened for digest computation or sidecar
writing is closed on every exit path: in any environment, including ones
where reads fault inside the `with` block, the trace of `process` closes
exactly the paths it opens. -/
theorem claim_C9_scoped_file_handles (env : Env) (st : ProcState) :
    openedPaths (process env st).events =
      closedPaths (process env st).events := by
  rcases st with ⟨inp, cfg⟩
  cases inp with
  | filenames ns => rfl
  | payload gs =>
    simp only [process]
    have hb := mapAddAncillary_balanced env cfg
      (fetchHdf env (dataFilenames (deepcopyGranules gs)))
    rcases hrec : mapAddAncillary env cfg
      (fetchHdf env (dataFilenames (deepcopyGranules gs))) with ⟨r, ev⟩
    rw [hrec] at hb
    simp only at hb
    cases r with
    | error e => simpa using hb
    | ok v => rcases v with ⟨ks, ws, us⟩; simpa using hb

/-- Claim C10: `process` overwrites the handler's own input attribute:
after a call on a payload, `self.input` holds the flat list of the
filenames of the files of type `"data"`, and a second call on the same
instance faults instead of seeing the original granule structure. -/
theorem claim_C10_input_overwritten (env : Env) (st : ProcState)
    (gs : List Granule) (h : st.input = .payload gs) :
    (process env st).finalInput = .filenames (dataFilenames gs) ∧
    (process env ⟨(process env st).finalInput, st.config⟩).result =
      .error () := by
  have hf := (process_state_effects env st gs h).2
  refine ⟨hf, ?_⟩
  rw [hf]
  rfl

theorem claim_C10_witness :
    (process wEnv wState).finalInput = .filenames (dataFilenames wGranules) ∧
    (process wEnv ⟨(process wEnv wState).finalInput, wState.config⟩).result =
      .error () :=
  claim_C10_input_overwritten wEnv wState wGranules rfl
